import Mathlib

/-!
Verification of the bittensor-register racing scripts (`src/main.py`,
`src/monkey.py`): a shallow embedding in Lean 4 of the balance gate, the
epoch-window scheduler, the submission tasks, the success signal, the
membership lookup and the wall-clock window advance, together with proofs
of the behavioural properties stated in the specification.
-/

namespace BittensorRegister

/-! ## Python values flowing through `_compare_balances` (main.py 52-69)

A value handed to `_compare_balances` is either a typed `Balance` (the
typed `<` succeeds and the `tao` attribute is a number), a value whose
typed `<` fails but whose string form's leading token parses as a float,
or a value for which both fail (`to_float` then returns `0.0`). -/

inductive PyVal where
  /-- a `bittensor.Balance`: typed `<` works, `.tao` is the rational value -/
  | typedVal (v : ℚ)
  /-- typed `<` raises, no `tao`, but `float(str(x).split()[0])` yields `v` -/
  | strNum (v : ℚ)
  /-- typed `<` raises, no `tao`, and the leading token is not a float;
      carries the underlying string so that there are many such values -/
  | junk (s : String)
  deriving DecidableEq

/-- The typed comparison `a < b` of the first `try:` block: it succeeds
(returns `some`) exactly when both operands are typed balances. -/
def typedLt : PyVal → PyVal → Option Bool
  | .typedVal a, .typedVal b => some (decide (a < b))
  | _, _ => none

/-- Function `to_float` inside `_compare_balances` (main.py 59-68): use `.tao` when
present, else parse the leading token of `str(x)`, else `0.0`. -/
def to_float : PyVal → ℚ
  | .typedVal v => v
  | .strNum v => v
  | .junk _ => 0

/-- Function `_compare_balances` (main.py 52-69): typed `a < b` when it
succeeds, otherwise `to_float a < to_float b`. -/
def compare_balances (a b : PyVal) : Bool :=
  match typedLt a b with
  | some r => r
  | none => decide (to_float a < to_float b)

/-- The balance gate of `submit_one` (main.py 184-191): a `None` balance
attempts anyway; a fetched balance attempts unless
`_compare_balances(bal, burn_cost)` holds. -/
def shouldAttempt (bal : Option PyVal) (cost : PyVal) : Bool :=
  match bal with
  | none => true
  | some b => !(compare_balances b cost)

/-! ## Window target computation (`_wait_for_next_epoch_start`, main.py 114-116) -/

/-- Target computation: `remainder = block % epoch_length; blocks_until = (epoch_length -
remainder) % epoch_length; target_block = block + blocks_until`. -/
def computeTarget (block period : ℕ) : ℕ :=
  let remainder := block % period
  let blocks_until := (period - remainder) % period
  block + blocks_until

/-! ## Epoch scheduler (`_wait_for_next_epoch_start`, main.py 106-135)

The chain environment is a first block query result, the result of the
`subtensor.metagraph` call (which is *not* wrapped in `try`, so a failure
propagates), and a list of subsequent block query results, one per loop
poll; the list doubles as fuel. Sleeps are counted, not performed. -/

inductive SchedOutcome where
  /-- an exception propagated out of the function -/
  | raised (msg : String)
  /-- returned normally after `coarse` 2-second sleeps and `fine`
      10-millisecond sleeps -/
  | waited (coarse fine : ℕ)
  /-- the poll list was exhausted while a loop was still running -/
  | outOfFuel
  deriving DecidableEq

/-- The coarse wait loop (main.py 121-127): poll; a failed query breaks,
a block at or past `target_block - 1` breaks, otherwise sleep 2 s and
repeat. Returns the unconsumed polls and the sleep count, or `none` when
the polls run out mid-loop. -/
def coarse_loop (target : ℕ) : List (Option ℕ) → Option (List (Option ℕ) × ℕ)
  | [] => none
  | q :: rest =>
    match q with
    | none => some (rest, 0)
    | some now =>
      if target - 1 ≤ now then some (rest, 0)
      else
        match coarse_loop target rest with
        | none => none
        | some (r, s) => some (r, s + 1)

/-- The fine-grained wait loop (main.py 129-135): same shape with bound
`target_block` and 10 ms sleeps. -/
def fine_loop (target : ℕ) : List (Option ℕ) → Option (List (Option ℕ) × ℕ)
  | [] => none
  | q :: rest =>
    match q with
    | none => some (rest, 0)
    | some now =>
      if target ≤ now then some (rest, 0)
      else
        match fine_loop target rest with
        | none => none
        | some (r, s) => some (r, s + 1)

/-- Function `_wait_for_next_epoch_start` (main.py 106-135). Returns the outcome
and the number of in-loop block queries performed. The metagraph call
happens before the `block is None` check, so its failure raises
regardless of the block query; `block % 0` raises `ZeroDivisionError`. -/
def sched_exec (tempoRes : Except String ℕ) (firstBlock : Option ℕ)
    (polls : List (Option ℕ)) : SchedOutcome × ℕ :=
  match tempoRes with
  | .error m => (.raised m, 0)
  | .ok epoch_length =>
    match firstBlock with
    | none => (.waited 0 0, 0)
    | some block =>
      if epoch_length = 0 then (.raised "ZeroDivisionError", 0)
      else
        let target_block := computeTarget block epoch_length
        if (epoch_length - block % epoch_length) % epoch_length = 0 then
          (.waited 0 0, 0)
        else
          match coarse_loop target_block polls with
          | none => (.outOfFuel, polls.length)
          | some (rest, cs) =>
            match fine_loop target_block rest with
            | none => (.outOfFuel, polls.length)
            | some (rest2, fs) =>
              (.waited cs fs, polls.length - rest2.length)

/-! ## The success signal (main.py 176-178, 221-226)

`success_event` plus the `success` payload behind `success_lock`. A set
attempt is the critical section at main.py 222-225: under the lock, if
the event is not yet set, store the payload and set the event. -/

structure Signal where
  isSet : Bool
  payload : Option (String × ℤ)
  deriving DecidableEq

/-- The fresh signal of a cycle: event clear, `success = None`. -/
def signal0 : Signal := { isSet := false, payload := none }

/-- One locked set attempt (main.py 222-225): a no-op when the event is
already set, otherwise stores the payload and sets the event. -/
def try_set (s : Signal) (p : String × ℤ) : Signal :=
  if s.isSet then s else { isSet := true, payload := some p }

/-- A serialised sequence of set attempts: the lock serialises the
critical sections, so any concurrent execution is one such sequence. -/
def run_sets (s : Signal) : List (String × ℤ) → Signal
  | [] => s
  | p :: ps => run_sets (try_set s p) ps

/-! ## Membership lookup (`_get_uid_for_hotkey`, main.py 87-95) and the
success watcher's acceptance test (main.py 221) -/

/-- Function `_get_uid_for_hotkey`: the direct uid query, falling back on
`is_hotkey_registered_on_subnet` when it raises; a positive fallback
answer yields the sentinel `1`, a raising fallback yields `None`. -/
def get_uid_for_hotkey (direct : Except Unit (Option ℤ))
    (fallback : Except Unit Bool) : Option ℤ :=
  match direct with
  | .ok u => u
  | .error _ =>
    match fallback with
    | .ok ok => if ok then some 1 else none
    | .error _ => none

/-- The watcher's success test `uid is not None and uid != 0`. -/
def watcher_accepts (uid : Option ℤ) : Bool :=
  match uid with
  | none => false
  | some u => decide (u ≠ 0)

/-! ## The monitor loop (main.py 211-227)

Each tick walks the wallet list; a wallet contributes a hotkey-access
result, and when the access succeeds, a membership query result. On the
first accepted uid the tick performs the locked set attempt and breaks. -/

/-- One monitor tick (the `for w in wallets` body). Input per wallet:
name, whether `w.hotkey.ss58_address` succeeds, and the
`_get_uid_for_hotkey` result. Returns the signal after the tick and the
number of membership queries issued. -/
def monitor_tick (s : Signal) : List (String × Bool × Option ℤ) → Signal × ℕ
  | [] => (s, 0)
  | (name, hkOk, uid) :: rest =>
    if hkOk then
      if watcher_accepts uid then
        match uid with
        | some u => (try_set s (name, u), 1)
        | none => (s, 1)
      else
        let r := monitor_tick s rest
        (r.1, r.2 + 1)
    else
      monitor_tick s rest

/-- The monitor while-loop (main.py 211-227): run ticks while the event
is clear; the tick list length models the deadline. Returns the final
signal and the total number of membership queries. -/
def monitor_run (s : Signal) : List (List (String × Bool × Option ℤ)) → Signal × ℕ
  | [] => (s, 0)
  | tick :: ticks =>
    if s.isSet then (s, 0)
    else
      let r1 := monitor_tick s tick
      let r2 := monitor_run r1.1 ticks
      (r2.1, r1.2 + r2.2)

/-! ## Submission tasks (`submit_one`, main.py 180-199) and the cycle's
record log -/

/-- The environment one wallet's task observes: whether the dispatch
loop submitted it before the deadline check broke (main.py 205-208),
the signal and deadline state at task start (main.py 181), whether
`wallet.coldkeypub.ss58_address` works, the fetched balance, and the
`_try_register` result. -/
structure WalletEnv where
  name : String
  dispatched : Bool
  signalSet : Bool
  pastDeadline : Bool
  addrOk : Bool
  balFetch : Option PyVal
  regOk : Bool
  regInfo : String
  deriving DecidableEq

/-- The balance `submit_one` sees: `None` when the coldkey address is
unreadable (`_get_wallet_balance` returns `None` before any query). -/
def observed_bal (e : WalletEnv) : Option PyVal :=
  if e.addrOk then e.balFetch else none

/-- The record `submit_one` appends to `submitted` for this wallet, or
`none` when it returns without submitting: not dispatched, signal set or
deadline passed at entry, or skipped by the balance gate. A record is
appended exactly when `_try_register` is called. -/
def task_record (cost : PyVal) (e : WalletEnv) : Option (String × Bool × String) :=
  if !e.dispatched then none
  else if e.signalSet || e.pastDeadline then none
  else if shouldAttempt (observed_bal e) cost then some (e.name, e.regOk, e.regInfo)
  else none

/-- The `submitted` log at the end of the cycle: each task appends at most once. -/
def cycle_records (cost : PyVal) (envs : List WalletEnv) : List (String × Bool × String) :=
  envs.filterMap (task_record cost)

/-! ## The remote-call trace of `main` (main.py 137-238) -/

/-- The kinds of remote calls `main` can issue. -/
inductive Call where
  | costQ | heightQ | metagraphQ | balanceQ | submitQ | membershipQ
  deriving DecidableEq

/-- The remote calls of one task: the pre-checks issue none; an
attempting task fetches the balance (when the address is readable) and,
unless the gate skips it, submits. -/
def task_calls (cost : PyVal) (e : WalletEnv) : List Call :=
  if !e.dispatched then []
  else if e.signalSet || e.pastDeadline then []
  else
    (if e.addrOk then [Call.balanceQ] else []) ++
    (if shouldAttempt (observed_bal e) cost then [Call.submitQ] else [])

/-- The block queries of the scheduler: the initial `_get_current_block`,
the `subtensor.metagraph` call, then one height query per loop poll. -/
def sched_calls (tempoRes : Except String ℕ) (firstBlock : Option ℕ)
    (polls : List (Option ℕ)) : List Call :=
  [Call.heightQ, Call.metagraphQ] ++
    List.replicate (sched_exec tempoRes firstBlock polls).2 Call.heightQ

/-- How a run of `main` ends. -/
inductive MainOutcome where
  /-- an uncaught exception propagated -/
  | raised (msg : String)
  /-- the branch `if not wallets: ... return` (main.py 167-169) -/
  | noWallets
  /-- the model's poll fuel ran out inside the scheduler -/
  | outOfFuel
  /-- the cycle ran; the attempt log and the final signal -/
  | finished (records : List (String × Bool × String)) (sig : Signal)
  deriving DecidableEq

/-- The environment of one run of `main`. -/
structure MainInputs where
  /-- the `USE_EPOCH_START` flag -/
  useEpoch : Bool
  /-- result of `_get_registration_cost` (uncaught on failure) -/
  costRes : Except String PyVal
  /-- result of the scheduler's `subtensor.metagraph(...).tempo` -/
  tempoRes : Except String ℕ
  /-- the scheduler's initial block query -/
  firstBlock : Option ℕ
  /-- the scheduler's loop polls -/
  polls : List (Option ℕ)
  /-- one entry per `COLDKEY_NAMES` entry that `load_wallet` loads
      (failures are caught and the wallet is dropped, main.py 150-165) -/
  wallets : List (Bool × WalletEnv)
  /-- the monitor's ticks -/
  ticks : List (List (String × Bool × Option ℤ))

/-- Function `main` (main.py 137-238) as a remote-call trace plus an outcome:
fetch the burn cost, optionally sync to the epoch boundary, load the
wallets, abort when none loaded, else dispatch the tasks and run the
monitor, then drain the futures and report. -/
def main_trace (inp : MainInputs) : List Call × MainOutcome :=
  match inp.costRes with
  | .error m => ([Call.costQ], .raised m)
  | .ok cost =>
    let schedCalls :=
      if inp.useEpoch then sched_calls inp.tempoRes inp.firstBlock inp.polls else []
    let base := Call.costQ :: schedCalls
    let schedOut :=
      if inp.useEpoch then (sched_exec inp.tempoRes inp.firstBlock inp.polls).1
      else .waited 0 0
    match schedOut with
    | .raised m => (base, .raised m)
    | .outOfFuel => (base, .outOfFuel)
    | .waited _ _ =>
      let loaded := (inp.wallets.filter (fun w => w.1)).map (fun w => w.2)
      if loaded.isEmpty then (base, .noWallets)
      else
        let mon := monitor_run signal0 inp.ticks
        (base ++ loaded.flatMap (task_calls cost) ++
          List.replicate mon.2 Call.membershipQ,
         .finished (cycle_records cost loaded) mon.1)

/-! ## The wall-clock variant (`src/monkey.py`) -/

/-- Cycle length `CYCLE_BLOCKS * BLOCK_TIME_S = 360 * 12` seconds (monkey.py 114-115,
145). -/
def cycle_seconds : ℚ := 360 * 12

/-- The anchor-advance loop (monkey.py 146-149): `target_dt = last_dt;
while target_dt <= now_dt: target_dt += cycle_seconds`, with the
iteration count as fuel (`none` = fuel exhausted mid-loop). -/
def advance_target : ℕ → ℚ → ℚ → Option ℚ
  | 0, target, now => if target ≤ now then none else some target
  | n + 1, target, now =>
    if target ≤ now then advance_target n (target + cycle_seconds) now
    else some target

/-- The future-draining loop of a monkey.py window (monkey.py 183-192):
while futures remain and no success, `wait(..., FIRST_COMPLETED)` splits
them into done and pending (modelled by a split point per round); a done
future with a truthy result sets `success` and breaks, and the loop
resumes with the pending list. Result: `some (success, leftover futures)`
or `none` when the round schedule is exhausted mid-loop. -/
def monkey_wait_loop : List Bool → List ℕ → Option (Bool × List Bool)
  | [], _ => some (false, [])
  | _ :: _, [] => none
  | f :: fs, n :: rounds =>
    let futs := f :: fs
    let done := futs.take n
    let pending := futs.drop n
    if done.any id then some (true, pending)
    else monkey_wait_loop pending rounds

/-- The call `executor.shutdown(wait=False)` (monkey.py 195): evaluation proceeds
without waiting for still-pending futures. -/
def monkey_shutdown_wait : Bool := false

/-! ## Example inputs used by closed theorems -/

/-- A wallet that is dispatched in time, sees neither the signal nor the
deadline, and whose fetched balance 1 is below the cost 5. -/
def c4env : WalletEnv :=
  { name := "cold_1", dispatched := true, signalSet := false,
    pastDeadline := false, addrOk := true,
    balFetch := some (.typedVal 1), regOk := true, regInfo := "ok" }

/-- A configured coldkey whose wallet fails to load. -/
def unloadedEnv : WalletEnv :=
  { name := "cold_1", dispatched := false, signalSet := false,
    pastDeadline := false, addrOk := false,
    balFetch := none, regOk := false, regInfo := "" }

/-- A run of `main` with epoch sync on (as configured in the source), a
successful cost fetch, a benign chain whose first block query fails, and
a single coldkey whose wallet does not load. -/
def c8inputs : MainInputs :=
  { useEpoch := true, costRes := .ok (.typedVal 1), tempoRes := .ok 360,
    firstBlock := none, polls := [], wallets := [(false, unloadedEnv)],
    ticks := [] }

/-- As `c8inputs` but with epoch sync off. -/
def c8okInputs : MainInputs :=
  { useEpoch := false, costRes := .ok (.typedVal 1), tempoRes := .ok 360,
    firstBlock := none, polls := [], wallets := [(false, unloadedEnv)],
    ticks := [] }

/-! # Theorems -/

/-- C1. - For every current chain height `h` and every positive window
period `p`, the target `t = computeTarget h p` used by the scheduler
satisfies `h ≤ t`, `t % p = 0` and `t - h < p`; when `h % p = 0` the
target equals `h` and `_wait_for_next_epoch_start` returns immediately
(no sleeps, no loop polls). -/
theorem C1_window_target (h p : ℕ) (polls : List (Option ℕ)) (hp : 0 < p) :
    h ≤ computeTarget h p ∧
    computeTarget h p % p = 0 ∧
    computeTarget h p - h < p ∧
    (h % p = 0 → computeTarget h p = h) ∧
    (h % p = 0 → sched_exec (.ok p) (some h) polls = (.waited 0 0, 0)) := by
  have hbu : (p - h % p) % p < p := Nat.mod_lt _ hp
  have hr : h % p < p := Nat.mod_lt _ hp
  refine ⟨Nat.le_add_right _ _, ?_, ?_, ?_, ?_⟩
  · show (h + (p - h % p) % p) % p = 0
    rw [Nat.add_mod, Nat.mod_eq_of_lt hbu]
    rcases Nat.eq_zero_or_pos (h % p) with h0 | hpos
    · rw [h0, Nat.sub_zero, Nat.mod_self, Nat.add_zero, Nat.zero_mod]
    · have : (p - h % p) % p = p - h % p := Nat.mod_eq_of_lt (by omega)
      rw [this]
      have : h % p + (p - h % p) = p := by omega
      rw [this, Nat.mod_self]
  · show h + (p - h % p) % p - h < p
    omega
  · intro h0
    show h + (p - h % p) % p = h
    rw [h0, Nat.sub_zero, Nat.mod_self, Nat.add_zero]
  · intro h0
    simp [sched_exec, hp.ne', h0]

/-- Witness for C1 at `h = 6`, `p = 3`. -/
theorem C1_window_target_witness :
    0 < 3 ∧
    (6 ≤ computeTarget 6 3 ∧
      computeTarget 6 3 % 3 = 0 ∧
      computeTarget 6 3 - 6 < 3 ∧
      (6 % 3 = 0 → computeTarget 6 3 = 6) ∧
      (6 % 3 = 0 → sched_exec (.ok 3) (some 6) [] = (.waited 0 0, 0))) :=
  ⟨by decide, C1_window_target 6 3 [] (by decide)⟩

/-- C2. - For every fetched balance `b` and cost `c` (typed values),
the balance gate of `submit_one` allows the attempt iff `b ≥ c`; for an
unavailable (`None`) balance it allows the attempt. -/
theorem C2_balance_gate (b c : ℚ) :
    (shouldAttempt (some (.typedVal b)) (.typedVal c) = true ↔ c ≤ b) ∧
    shouldAttempt none (.typedVal c) = true := by
  constructor
  · simp [shouldAttempt, compare_balances, typedLt, not_lt]
  · rfl

/-- C9. - For values on which both the typed `<` and the numeric
conversion fail, `to_float` yields `0.0` for each, `_compare_balances`
returns `false`, and the balance gate lets the attempt proceed. -/
theorem C9_junk_fallback (s t : String) :
    to_float (.junk s) = 0 ∧
    to_float (.junk t) = 0 ∧
    compare_balances (.junk s) (.junk t) = false ∧
    shouldAttempt (some (.junk s)) (.junk t) = true := by
  refine ⟨rfl, rfl, ?_, ?_⟩ <;>
    simp [compare_balances, typedLt, to_float, shouldAttempt]

/-- C3, counterexample. - The claim says the scheduler never raises
for any behaviour of the chain client; but the `subtensor.metagraph`
call at main.py 109 is not guarded by a `try`, so when it fails the
exception propagates out of `_wait_for_next_epoch_start`. -/
theorem C3_cex :
    (sched_exec (.error "metagraph query failed") (some 5) []).1 =
      .raised "metagraph query failed" := rfl

/-- C3, amended. - Provided the metagraph query succeeds with a
positive epoch length, the scheduler never raises; when the initial
height query fails it returns immediately with no sleeps and no further
queries; and a failed height query inside either polling loop breaks
that loop at once with no further sleep. -/
theorem C3_sched_no_raise (p : ℕ) (fb : Option ℕ) (polls rest : List (Option ℕ))
    (target : ℕ) (m : String) (hp : 0 < p) :
    (sched_exec (.ok p) fb polls).1 ≠ .raised m ∧
    sched_exec (.ok p) none polls = (.waited 0 0, 0) ∧
    coarse_loop target (none :: rest) = some (rest, 0) ∧
    fine_loop target (none :: rest) = some (rest, 0) := by
  refine ⟨?_, rfl, rfl, rfl⟩
  cases fb with
  | none => simp [sched_exec]
  | some b =>
    simp only [sched_exec]
    rw [if_neg hp.ne']
    split
    · simp
    · split
      · simp
      · split
        · simp
        · simp

/-- Witness for C3 (amended) at `p = 1`. -/
theorem C3_sched_no_raise_witness :
    0 < 1 ∧
    ((sched_exec (.ok 1) (some 0) []).1 ≠ .raised "x" ∧
      sched_exec (.ok 1) none [] = (.waited 0 0, 0) ∧
      coarse_loop 0 (none :: []) = some ([], 0) ∧
      fine_loop 0 (none :: []) = some ([], 0)) :=
  ⟨by decide, C3_sched_no_raise 1 (some 0) [] [] 0 "x" (by decide)⟩

/-- A signal that is already set absorbs every later serialised set
attempt. -/
theorem run_sets_of_set (ps : List (String × ℤ)) :
    ∀ s : Signal, s.isSet = true → run_sets s ps = s := by
  induction ps with
  | nil => intro s _; rfl
  | cons p ps ih =>
    intro s hs
    rw [run_sets, show try_set s p = s from by simp [try_set, hs]]
    exact ih s hs

/-- C5. - Within a cycle, the success signal is set at most once: the
first serialised setter's payload is retained by every subsequent set
attempt, and a single set attempt on an already-set signal is a no-op. -/
theorem C5_first_setter_wins (p q : String × ℤ) (ps : List (String × ℤ))
    (s : Signal) (hs : s.isSet = true) :
    run_sets signal0 (p :: ps) = { isSet := true, payload := some p } ∧
    try_set s q = s := by
  constructor
  · rw [run_sets, show try_set signal0 p = { isSet := true, payload := some p } from rfl]
    exact run_sets_of_set ps _ rfl
  · simp [try_set, hs]

/-- Witness for C5: two racing setters, the first wins. -/
theorem C5_first_setter_wins_witness :
    ({ isSet := true, payload := some ("cold_1", 7) } : Signal).isSet = true ∧
    (run_sets signal0 (("cold_1", 7) :: [("cold_2", 9)]) =
        { isSet := true, payload := some ("cold_1", 7) } ∧
      try_set { isSet := true, payload := some ("cold_1", 7) } ("cold_2", 9) =
        { isSet := true, payload := some ("cold_1", 7) }) :=
  ⟨rfl, C5_first_setter_wins ("cold_1", 7) ("cold_2", 9) [("cold_2", 9)]
    { isSet := true, payload := some ("cold_1", 7) } rfl⟩

/-- C10. - When the direct uid query raises but the fallback
registered-on-subnet check answers `true`, `_get_uid_for_hotkey` returns
the sentinel `1` whatever the chain-assigned uid is; the watcher accepts
that sentinel, and the winner payload it stores carries index `1`. In
particular a hotkey actually registered at uid `0` is accepted through
the fallback even though the direct answer `some 0` would be rejected. -/
theorem C10_uid_sentinel (actual : Option ℤ) (h : actual.isSome = true) :
    get_uid_for_hotkey (.error ()) (.ok actual.isSome) = some 1 ∧
    watcher_accepts (get_uid_for_hotkey (.error ()) (.ok actual.isSome)) = true ∧
    watcher_accepts (get_uid_for_hotkey (.ok actual) (.ok actual.isSome)) =
      watcher_accepts actual ∧
    (monitor_run signal0
        [[("cold_1", true, get_uid_for_hotkey (.error ()) (.ok true))]]).1.payload =
      some ("cold_1", 1) := by
  rw [h]
  refine ⟨rfl, rfl, ?_, rfl⟩
  simp [get_uid_for_hotkey]

/-- Witness for C10 at `actual = some 0`: registered at uid 0. -/
theorem C10_uid_sentinel_witness :
    (some (0 : ℤ)).isSome = true ∧
    (get_uid_for_hotkey (.error ()) (.ok (some (0 : ℤ)).isSome) = some 1 ∧
      watcher_accepts (get_uid_for_hotkey (.error ()) (.ok (some (0 : ℤ)).isSome)) = true ∧
      watcher_accepts (get_uid_for_hotkey (.ok (some (0 : ℤ))) (.ok (some (0 : ℤ)).isSome)) =
        watcher_accepts (some (0 : ℤ)) ∧
      (monitor_run signal0
          [[("cold_1", true, get_uid_for_hotkey (.error ()) (.ok true))]]).1.payload =
        some ("cold_1", 1)) :=
  ⟨rfl, C10_uid_sentinel (some 0) rfl⟩

/-- Given enough fuel, the anchor-advance loop returns the least
whole-cycle translate of the anchor strictly beyond `now`. -/
theorem advance_target_spec (now : ℚ) :
    ∀ (n : ℕ) (target : ℚ), now < target + n * cycle_seconds →
    ∃ t, advance_target n target now = some t ∧
      (∃ k : ℕ, t = target + k * cycle_seconds) ∧ now < t ∧
      ∀ j : ℕ, now < target + j * cycle_seconds → t ≤ target + j * cycle_seconds := by
  have hc : (0 : ℚ) < cycle_seconds := by norm_num [cycle_seconds]
  intro n
  induction n with
  | zero =>
    intro target hlt
    rw [Nat.cast_zero, zero_mul, add_zero] at hlt
    refine ⟨target, ?_, ⟨0, by rw [Nat.cast_zero, zero_mul, add_zero]⟩, hlt, ?_⟩
    · rw [advance_target, if_neg (not_le.mpr hlt)]
    · intro j _
      have : (0 : ℚ) ≤ (j : ℚ) * cycle_seconds :=
        mul_nonneg (Nat.cast_nonneg j) hc.le
      linarith
  | succ n ih =>
    intro target hlt
    by_cases hle : target ≤ now
    · have h2 : now < (target + cycle_seconds) + n * cycle_seconds := by
        push_cast at hlt ⊢
        linarith
      obtain ⟨t, heq, ⟨k, hk⟩, hnow, hmin⟩ := ih (target + cycle_seconds) h2
      refine ⟨t, ?_, ⟨k + 1, by rw [hk]; push_cast; ring⟩, hnow, ?_⟩
      · rw [advance_target, if_pos hle]
        exact heq
      · intro j hj
        match j with
        | 0 =>
          rw [Nat.cast_zero, zero_mul, add_zero] at hj
          linarith
        | j + 1 =>
          have := hmin j (by push_cast at hj ⊢; linarith)
          push_cast at this ⊢
          linarith
    · push_neg at hle
      refine ⟨target, ?_, ⟨0, by rw [Nat.cast_zero, zero_mul, add_zero]⟩, hle, ?_⟩
      · rw [advance_target, if_neg (not_le.mpr hle)]
      · intro j _
        have : (0 : ℚ) ≤ (j : ℚ) * cycle_seconds :=
          mul_nonneg (Nat.cast_nonneg j) hc.le
        linarith

/-- C7. - For every anchor `last` and current time `now`, the
monkey.py anchor-advance loop (run with enough iterations) produces a
target that is the anchor plus a whole number of cycle lengths, is
strictly after `now`, and is the smallest such translate. -/
theorem C7_wallclock_target (last now : ℚ) :
    ∃ n t, advance_target n last now = some t ∧
      (∃ k : ℕ, t = last + k * cycle_seconds) ∧ now < t ∧
      ∀ j : ℕ, now < last + j * cycle_seconds → t ≤ last + j * cycle_seconds := by
  have hc : (0 : ℚ) < cycle_seconds := by norm_num [cycle_seconds]
  obtain ⟨n, hn⟩ := exists_nat_gt ((now - last) / cycle_seconds)
  have hlt : now < last + n * cycle_seconds := by
    have := (div_lt_iff₀ hc).mp hn
    linarith
  obtain ⟨t, h1, h2, h3, h4⟩ := advance_target_spec now n last hlt
  exact ⟨n, t, h1, h2, h3, h4⟩

/-- C6, counterexample. - The claim says every dispatched task reaches
a terminal state before the cycle's outcome is evaluated. In monkey.py,
when a completed future reports success the draining loop exits with
the still-pending futures left over, and `executor.shutdown(wait=False)`
does not wait for them: here one of two dispatched futures is still
pending when evaluation begins. -/
theorem C6_cex :
    monkey_wait_loop [true, false] [1] = some (true, [false]) ∧
    [false] ≠ ([] : List Bool) ∧
    monkey_shutdown_wait = false := by decide

/-- C6, amended. - The draining loop leaves no pending future when it
exits without success, so a new cycle only ever starts after every
dispatched task of the previous window reached a terminal state; only
the success exit can leave pending tasks behind at evaluation. -/
theorem C6_no_success_exit_drains (futs : List Bool) (rounds : List ℕ)
    (l : List Bool) (h : monkey_wait_loop futs rounds = some (false, l)) :
    l = [] := by
  induction rounds generalizing futs with
  | nil =>
    cases futs with
    | nil =>
      rw [monkey_wait_loop] at h
      injection h with h2
      injection h2 with h3 h4
      exact h4.symm
    | cons f fs => exact absurd h (by rw [monkey_wait_loop]; simp)
  | cons n rounds ih =>
    cases futs with
    | nil =>
      rw [monkey_wait_loop] at h
      injection h with h2
      injection h2 with h3 h4
      exact h4.symm
    | cons f fs =>
      rw [monkey_wait_loop] at h
      by_cases hd : ((f :: fs).take n).any id = true
      · rw [if_pos hd] at h
        exact absurd ((Option.some.injEq _ _).mp h) (by simp)
      · rw [if_neg hd] at h
        exact ih _ h

/-- Witness for C6 (amended): two futures that both complete without
success in one round; none is left pending. -/
theorem C6_no_success_exit_drains_witness :
    monkey_wait_loop [false, false] [2] = some (false, []) ∧ ([] : List Bool) = [] :=
  ⟨by decide, C6_no_success_exit_drains [false, false] [2] [] (by decide)⟩

/-- C4, counterexample. - The claim says every identity handed to the
coordinator yields exactly one record, with gate-rejected identities
recorded as `Skipped`. In the code, `submit_one` returns without
appending anything when the balance gate rejects: a dispatched wallet
with balance 1 against cost 5 leaves the `submitted` log empty. -/
theorem C4_cex :
    cycle_records (.typedVal 5) [c4env] = [] ∧
    task_record (.typedVal 5) c4env = none := by
  constructor <;> rfl

/-- A record appended by `submit_one` carries the wallet's own name. -/
theorem task_record_name (cost : PyVal) (e : WalletEnv)
    (r : String × Bool × String) (h : task_record cost e = some r) :
    r.1 = e.name := by
  unfold task_record at h
  split at h
  · exact absurd h (by simp)
  · split at h
    · exact absurd h (by simp)
    · split at h
      · injection h with h2
        rw [← h2]
      · exact absurd h (by simp)

/-- The names of the cycle's records form a sublist of the wallet
names: each wallet's task appends at most once. -/
theorem records_names_sublist (cost : PyVal) :
    ∀ envs : List WalletEnv,
      ((cycle_records cost envs).map (fun r => r.1)).Sublist
        (envs.map WalletEnv.name) := by
  intro envs
  induction envs with
  | nil => simp [cycle_records]
  | cons e es ih =>
    rw [cycle_records, List.filterMap_cons]
    cases he : task_record cost e with
    | none => exact (ih).cons e.name
    | some r =>
      rw [List.map_cons, List.map_cons, task_record_name cost e r he]
      exact (ih).cons₂ e.name

/-- C4, amended. - No identity ever gets more than one record in a
cycle: with distinct wallet names, at most one record carries a given
name. Identities whose task sees the signal set or the deadline passed,
and identities rejected by the balance gate, produce no record at all
(and perform no submission) rather than a `Skipped` record. -/
theorem C4_at_most_one_record (cost : PyVal) (envs : List WalletEnv)
    (nm : String) (e : WalletEnv)
    (hnodup : (envs.map WalletEnv.name).Nodup) :
    List.count nm ((cycle_records cost envs).map (fun r => r.1)) ≤ 1 ∧
    ((e.signalSet || e.pastDeadline) = true → task_record cost e = none) ∧
    (shouldAttempt (observed_bal e) cost = false → task_record cost e = none) ∧
    (task_record cost e = none → Call.submitQ ∉ task_calls cost e) := by
  refine ⟨?_, ?_, ?_, ?_⟩
  · exact le_trans ((records_names_sublist cost envs).count_le nm)
      (List.nodup_iff_count_le_one.mp hnodup nm)
  · intro hsig
    simp [task_record, hsig]
  · intro hgate
    simp [task_record, hgate]
  · intro hnone
    by_cases h1 : (!e.dispatched) = true
    · simp [task_calls, h1]
    · by_cases h2 : (e.signalSet || e.pastDeadline) = true
      · simp [task_calls, h1, h2]
      · by_cases h3 : shouldAttempt (observed_bal e) cost = true
        · exact absurd hnone (by simp [task_record, h1, h2, h3])
        · unfold task_calls
          rw [if_neg h1, if_neg h2, if_neg h3]
          rw [List.append_nil]
          split <;> simp

/-- Witness for C4 (amended) on the single gate-rejected wallet. -/
theorem C4_at_most_one_record_witness :
    (([c4env].map WalletEnv.name).Nodup) ∧
    (List.count "cold_1" ((cycle_records (.typedVal 5) [c4env]).map (fun r => r.1)) ≤ 1 ∧
      ((c4env.signalSet || c4env.pastDeadline) = true →
        task_record (.typedVal 5) c4env = none) ∧
      (shouldAttempt (observed_bal c4env) (.typedVal 5) = false →
        task_record (.typedVal 5) c4env = none) ∧
      (task_record (.typedVal 5) c4env = none →
        Call.submitQ ∉ task_calls (.typedVal 5) c4env)) :=
  ⟨by simp, C4_at_most_one_record (.typedVal 5) [c4env] "cold_1" c4env (by simp)⟩

/-- C8, counterexample. - The claim says a run with zero loadable
identities performs no remote calls at all. In the code the burn-cost
fetch and the epoch-sync queries happen before the wallets are loaded:
with one configured coldkey whose wallet fails to load, the run still
aborts with `noWallets`, yet the trace contains the cost query and the
height query. -/
theorem C8_cex :
    (main_trace c8inputs).2 = .noWallets ∧
    Call.costQ ∈ (main_trace c8inputs).1 ∧
    Call.heightQ ∈ (main_trace c8inputs).1 := by decide

/-- C8, amended. - With zero loadable identities (and the setup
queries succeeding), `main` aborts before any cycle: no submission, no
balance query and no membership query is performed — but the cost query
(and, when epoch sync is enabled, the height/metagraph queries) do
happen before the identity check. -/
theorem C8_abort_before_dispatch (inp : MainInputs) (c : PyVal)
    (hload : inp.wallets.filter (fun w => w.1) = [])
    (hcost : inp.costRes = .ok c)
    (hsched : inp.useEpoch = false ∨
      ∃ a b, (sched_exec inp.tempoRes inp.firstBlock inp.polls).1 = .waited a b) :
    (main_trace inp).2 = .noWallets ∧
    Call.submitQ ∉ (main_trace inp).1 ∧
    Call.balanceQ ∉ (main_trace inp).1 ∧
    Call.membershipQ ∉ (main_trace inp).1 ∧
    Call.costQ ∈ (main_trace inp).1 := by
  by_cases hue : inp.useEpoch = true
  · rcases hsched with hue' | ⟨a, b, hab⟩
    · rw [hue] at hue'
      exact absurd hue' (by simp)
    · have hmt : main_trace inp =
          (Call.costQ :: sched_calls inp.tempoRes inp.firstBlock inp.polls,
            .noWallets) := by
        simp [main_trace, hcost, hue, hab, hload]
      rw [hmt]
      refine ⟨rfl, ?_, ?_, ?_, by simp⟩ <;>
        simp [sched_calls, List.mem_replicate]
  · have hmt : main_trace inp = ([Call.costQ], .noWallets) := by
      simp [main_trace, hcost, hue, hload]
    rw [hmt]
    exact ⟨rfl, by simp, by simp, by simp, by simp⟩

/-- Witness for C8 (amended) on a run with epoch sync off and one
unloadable coldkey. -/
theorem C8_abort_before_dispatch_witness :
    c8okInputs.wallets.filter (fun w => w.1) = [] ∧
    c8okInputs.costRes = .ok (.typedVal 1) ∧
    (c8okInputs.useEpoch = false ∨
      ∃ a b, (sched_exec c8okInputs.tempoRes c8okInputs.firstBlock
        c8okInputs.polls).1 = .waited a b) ∧
    ((main_trace c8okInputs).2 = .noWallets ∧
      Call.submitQ ∉ (main_trace c8okInputs).1 ∧
      Call.balanceQ ∉ (main_trace c8okInputs).1 ∧
      Call.membershipQ ∉ (main_trace c8okInputs).1 ∧
      Call.costQ ∈ (main_trace c8okInputs).1) :=
  ⟨rfl, rfl, Or.inl rfl,
    C8_abort_before_dispatch c8okInputs (.typedVal 1) rfl rfl (Or.inl rfl)⟩

end BittensorRegister
